import Mathlib

/-!
Shallow embedding of the streaming-connection fallback controller
(`Connection` class, `src/openapi/streaming/connection.ts`-style module).

Transport instances are identified by the candidate-list index at which they
were constructed; every observable interaction of the `Connection` with a
transport instance, with the logger, or with a consumer-supplied callback is
recorded as an event in a trace.  Consumer-supplied callback functions are
identified by natural numbers.

The concrete transport implementations (`WebsocketTransport`,
`SignalrTransport`, `SignalrCoreTransport`) and the `transportTypes` string
constants are imported by the source module but are not part of this
subsystem; they enter only through `isSupported()` (modelled as an
environment `Env` assigning each transport class its capability-probe
result) and through the opaque identifier type `TransportName`.
-/

/-- Modelled from the spec: the transport-type identifiers (`transportTypes`
module, not part of this subsystem's source).  The five known identifiers are
the registry keys; `unknown` stands for any identifier outside the registry. -/
inductive TransportName where
  | signalrCoreWebsockets
  | signalrCoreLongPolling
  | plainWebsockets
  | legacySignalrWebsockets
  | legacySignalrLongPolling
  | unknown (s : String)
deriving DecidableEq, Repr

/-- Modelled from the spec: the three transport implementation classes the
registry maps to (their internals are external collaborators; only the
class-level capability probe `isSupported()` matters here). -/
inductive TransportClass where
  | websocketTransport
  | signalrTransport
  | signalrCoreTransport
deriving DecidableEq, Repr

/-- Modelled from the spec: the environment's answer to each transport
class's stateless capability probe `isSupported()`. -/
def Env : Type := TransportClass → Bool

/-- JavaScript option-object values (only the shapes this module stores). -/
inductive Val where
  | str (s : String)
  | bool (b : Bool)
  | num (n : Int)
  | tname (t : TransportName)
  | tnames (l : List TransportName)
deriving DecidableEq, Repr

/-- A JavaScript object literal, as an ordered list of key/value assignments
(later assignments override earlier ones, as in object spread). -/
abbrev Obj : Type := List (String × Val)

/-- Property lookup on an object: the LAST assignment of the key wins,
matching JavaScript semantics where `{...a, ...b}` lets `b` override `a`. -/
def objGet : Obj → String → Option Val
  | [], _ => none
  | (k', v) :: rest, k =>
    match objGet rest k with
    | some v' => some v'
    | none => if k' = k then some v else none

/-- The object spread `{...a, ...b}`: all of `a`'s assignments followed by
all of `b`'s, so with `objGet` semantics `b`'s keys win on conflict. -/
def jsSpread (a b : Obj) : Obj := a ++ b

/-- One `TRANSPORT_NAME_MAP` entry: `{ options, instance }`. -/
structure Entry where
  options : Obj
  instance_ : TransportClass
deriving DecidableEq, Repr

/-- `TRANSPORT_NAME_MAP`: the fixed registry from transport-type identifier
to `{ default start options, transport class }`. -/
def TRANSPORT_NAME_MAP : TransportName → Option Entry
  | .signalrCoreWebsockets =>
      some ⟨[("transportType", .tname .signalrCoreWebsockets),
             ("skipNegotiation", .bool true)], .signalrCoreTransport⟩
  | .signalrCoreLongPolling =>
      some ⟨[("transportType", .tname .signalrCoreLongPolling),
             ("skipNegotiation", .bool false)], .signalrCoreTransport⟩
  | .plainWebsockets => some ⟨[], .websocketTransport⟩
  | .legacySignalrWebsockets => some ⟨[], .signalrTransport⟩
  | .legacySignalrLongPolling => some ⟨[], .signalrTransport⟩
  | .unknown _ => none

/-- `DEFAULT_TRANSPORTS = [PLAIN_WEBSOCKETS, LEGACY_SIGNALR_WEBSOCKETS]`. -/
def DEFAULT_TRANSPORTS : List TransportName :=
  [.plainWebsockets, .legacySignalrWebsockets]

/-- Connection lifecycle states (`STATE_CREATED` … `STATE_DISPOSED`). -/
inductive ConnState where
  | created
  | started
  | stopped
  | disposed
deriving DecidableEq, Repr

/-- A callback value as stored in a `Connection` field and registered on a
transport: `NOOP`, an `ensureValidState.bind(this, cb, kind)` wrapper around
consumer callback `cb`, or a bare (unwrapped) consumer callback. -/
inductive StoredCb where
  | noop
  | wrapped (kind : String) (consumer : Nat)
  | raw (consumer : Nat)
deriving DecidableEq, Repr

/-- Observable events: logger calls, capability probes, transport
construction, calls the `Connection` makes on a transport instance
(identified by its candidate-list index), invocations of the total-failure
callback and of consumer callbacks, and a thrown TypeError. -/
inductive Ev where
  | logError (msg : String)
  | logWarn (msg : String)
  | logInfo (msg : String)
  | logDebug (msg : String)
  | isSupportedChecked (idx : Nat)
  | transportConstructed (idx : Nat) (baseUrl : String)
  | failCalled
  | tSetReceived (t : Nat) (cb : StoredCb)
  | tSetStateChanged (t : Nat) (cb : StoredCb)
  | tSetUnauthorized (t : Nat) (cb : Option StoredCb)
  | tSetConnectionSlow (t : Nat) (cb : StoredCb)
  | tUpdateQuery (t : Nat) (authToken : Option String) (contextId : Option String)
      (authExpiry : Option Int) (forceAuth : Option Bool)
  | tStart (t : Nat) (opts : Obj) (cb : StoredCb)
  | tStop (t : Nat)
  | tGetQuery (t : Nat)
  | tOnOrphanFound (t : Nat)
  | tOnSubscribeNetworkError (t : Nat)
  | consumerCalled (consumer : Nat) (args : List Val)
  | jsThrow
deriving DecidableEq, Repr

/-- The `Connection` instance state.  `transport` holds the candidate-list
index of the active transport instance (`none` = JS `null`); `transportIndex`
is the fallback cursor (`none` = JS `null`, before the first search). -/
structure Connection where
  baseUrl : String
  failCallback : StoredCb
  startCallback : StoredCb
  stateChangedCallback : StoredCb
  receiveCallback : StoredCb
  connectionSlowCallback : StoredCb
  authToken : Option String
  authExpiry : Option Int
  contextId : Option String
  options : Obj
  transports : List Entry
  state : ConnState
  transportIndex : Option Nat
  transport : Option Nat
  unauthorizedCallback : Option StoredCb
deriving DecidableEq, Repr

/-- The `transport` property of the constructor's options object: the
caller's ordered transport-type preference list, when given. -/
def optionsTransport (options : Obj) : Option (List TransportName) :=
  match objGet options "transport" with
  | some (.tnames l) => some l
  | _ => none

/-- `getSupportedTransports(requestedTrasnports)`: default the name list,
then push the registry entry for each name the registry knows. -/
def getSupportedTransports (requestedTrasnports : Option (List TransportName)) :
    List Entry :=
  let transportNames :=
    match requestedTrasnports with
    | none => DEFAULT_TRANSPORTS
    | some l => l
  transportNames.foldl
    (fun supported transportName =>
      match TRANSPORT_NAME_MAP transportName with
      | some e => supported ++ [e]
      | none => supported)
    []

/-- The recursive body of `createTransport` after the cursor has been
advanced to `i` (the source mutates `this.transportIndex` then recurses).
Returns the final cursor value, the constructed transport's index (if any)
and the emitted events.  `transportIndex > transports.length - 1` in JS
integer arithmetic is `length ≤ i`. -/
def createTransportGo (env : Env) (ts : List Entry) (baseUrl : String) (i : Nat) :
    Nat × Option Nat × List Ev :=
  if h : ts.length ≤ i then
    (i, none, [])
  else
    let e := ts.get ⟨i, by omega⟩
    if env e.instance_ then
      (i, some i, [.isSupportedChecked i, .transportConstructed i baseUrl])
    else
      let r := createTransportGo env ts baseUrl (i + 1)
      (r.1, r.2.1, .isSupportedChecked i :: r.2.2)
termination_by ts.length - i

/-- `createTransport(baseUrl)`: advance the cursor (from `null` to `0`,
otherwise by one) and search forward for the first supported candidate. -/
def createTransport (env : Env) (ts : List Entry) (baseUrl : String)
    (transportIndex : Option Nat) : Nat × Option Nat × List Ev :=
  createTransportGo env ts baseUrl
    (match transportIndex with
     | none => 0
     | some j => j + 1)

/-- `this.transports[this.transportIndex].options` (in-range by invariant;
out-of-range reads give the empty object here, they are unreachable). -/
def optionsAtIndex (ts : List Entry) (transportIndex : Option Nat) : Obj :=
  match transportIndex with
  | none => []
  | some i =>
    match ts.get? i with
    | some e => e.options
    | none => []

/-- The `Connection` constructor: store the callbacks and parameters, build
the candidate list, run the fallback search once, and on total failure log
an error and invoke the fail callback. -/
def mkConnection (env : Env) (options : Obj) (baseUrl : String)
    (failCallback : StoredCb) : Connection × List Ev :=
  let transports := getSupportedTransports (optionsTransport options)
  let r := createTransport env transports baseUrl none
  let c : Connection :=
    { baseUrl := baseUrl
      failCallback := failCallback
      startCallback := .noop
      stateChangedCallback := .noop
      receiveCallback := .noop
      connectionSlowCallback := .noop
      authToken := none
      authExpiry := none
      contextId := none
      options := options
      transports := transports
      state := .created
      transportIndex := some r.1
      transport := r.2.1
      unauthorizedCallback := none }
  match r.2.1 with
  | none =>
    (c, r.2.2 ++
      [.logError "Unable to setup initial transport. Supported Transport not found.",
       .failCalled])
  | some _ =>
    (c, r.2.2 ++ [.logDebug "Supported Transport found"])

/-- `ensureValidState(callback, callbackType, ...args)`: when disposed, log a
warning (whose detail object reads `this.transport.name`, a TypeError when
`transport` is `null`) and drop the call; otherwise forward all arguments. -/
def ensureValidState (c : Connection) (callback : Nat) (callbackType : String)
    (args : List Val) : List Ev :=
  if c.state = .disposed then
    match c.transport with
    | none => [.jsThrow]
    | some _ => [.logWarn callbackType]
  else
    [.consumerCalled callback args]

/-- Invoke a stored callback value under the connection's current state
(`NOOP` does nothing; a bare consumer callback always reaches the consumer;
a wrapper goes through `ensureValidState`). -/
def invokeStored (c : Connection) (cb : StoredCb) (args : List Val) : List Ev :=
  match cb with
  | .noop => []
  | .raw consumer => [.consumerCalled consumer args]
  | .wrapped kind consumer => ensureValidState c consumer kind args

namespace Connection

/-- `onTransportFail(error?)`: log, run the fallback search; on exhaustion
warn and invoke the fail callback; on a replacement re-register the four
forwarding callbacks, and when started replay the session and start it with
the merged options and the stored start-completion callback. -/
def onTransportFail (env : Env) (c : Connection) : Connection × List Ev :=
  let r := createTransport env c.transports c.baseUrl c.transportIndex
  let c' := { c with transportIndex := some r.1, transport := r.2.1 }
  match r.2.1 with
  | none =>
    (c', .logInfo "Transport failed" :: r.2.2 ++
      [.logWarn "Next supported Transport not found", .failCalled])
  | some t =>
    (c', .logInfo "Transport failed" :: r.2.2 ++
      [.logDebug "Next supported Transport found",
       .tSetReceived t c.receiveCallback,
       .tSetStateChanged t c.stateChangedCallback,
       .tSetUnauthorized t c.unauthorizedCallback,
       .tSetConnectionSlow t c.connectionSlowCallback] ++
      (if c.state = .started then
        [.tUpdateQuery t c.authToken c.contextId c.authExpiry none,
         .tStart t (jsSpread (optionsAtIndex c'.transports c'.transportIndex) c.options)
           c.startCallback]
      else []))

/-- `setUnauthorizedCallback(callback)`. -/
def setUnauthorizedCallback (c : Connection) (callback : Nat) :
    Connection × List Ev :=
  match c.transport with
  | none => (c, [])
  | some t =>
    ({ c with unauthorizedCallback := some (.wrapped "unauthorizedCallback" callback) },
     [.tSetUnauthorized t (some (.wrapped "unauthorizedCallback" callback))])

/-- `setStateChangedCallback(callback)`. -/
def setStateChangedCallback (c : Connection) (callback : Nat) :
    Connection × List Ev :=
  match c.transport with
  | none => (c, [])
  | some t =>
    ({ c with stateChangedCallback := .wrapped "stateChangedCallback" callback },
     [.tSetStateChanged t (.wrapped "stateChangedCallback" callback)])

/-- `setReceivedCallback(callback)`. -/
def setReceivedCallback (c : Connection) (callback : Nat) :
    Connection × List Ev :=
  match c.transport with
  | none => (c, [])
  | some t =>
    ({ c with receiveCallback := .wrapped "receivedCallback" callback },
     [.tSetReceived t (.wrapped "receivedCallback" callback)])

/-- `setConnectionSlowCallback(callback)`. -/
def setConnectionSlowCallback (c : Connection) (callback : Nat) :
    Connection × List Ev :=
  match c.transport with
  | none => (c, [])
  | some t =>
    ({ c with connectionSlowCallback := .wrapped "connectionSlowCallback" callback },
     [.tSetConnectionSlow t (.wrapped "connectionSlowCallback" callback)])

/-- `start(callback)`: note the consumer callback is stored and handed to the
transport as-is, without the `ensureValidState` wrapper. -/
def start (c : Connection) (callback : Nat) : Connection × List Ev :=
  match c.transport with
  | none => (c, [])
  | some t =>
    let c' := { c with state := .started, startCallback := .raw callback }
    (c', [.tStart t
      (jsSpread (optionsAtIndex c.transports c.transportIndex) c.options)
      (.raw callback)])

/-- `stop()`. -/
def stop (c : Connection) : Connection × List Ev :=
  match c.transport with
  | none => (c, [])
  | some t => ({ c with state := .stopped }, [.tStop t])

/-- `dispose()`. -/
def dispose (c : Connection) : Connection × List Ev :=
  ({ c with state := .disposed }, [])

/-- `updateQuery(authToken, contextId, authExpiry?, forceAuth = false)`. -/
def updateQuery (c : Connection) (authToken contextId : String)
    (authExpiry : Option Int) (forceAuth : Bool) : Connection × List Ev :=
  let c' := { c with
    authToken := some authToken
    contextId := some contextId
    authExpiry := authExpiry }
  match c'.transport with
  | none => (c', [.logDebug "Connection update query"])
  | some t =>
    (c', [.logDebug "Connection update query",
          .tUpdateQuery t c'.authToken c'.contextId c'.authExpiry (some forceAuth)])

/-- `getQuery()`. -/
def getQuery (c : Connection) : Connection × List Ev :=
  match c.transport with
  | none => (c, [])
  | some t => (c, [.tGetQuery t])

/-- `onOrphanFound()` (forwarded when the transport exposes the hook; hook
presence is a transport-implementation detail and never touches `c`). -/
def onOrphanFound (c : Connection) : Connection × List Ev :=
  match c.transport with
  | none => (c, [])
  | some t => (c, [.tOnOrphanFound t])

/-- `onSubscribeNetworkError()` (same optional-hook forwarding). -/
def onSubscribeNetworkError (c : Connection) : Connection × List Ev :=
  match c.transport with
  | none => (c, [])
  | some t => (c, [.tOnSubscribeNetworkError t])

/-- `getTransport()`: the active transport (the legacy one-level unwrap via
the instance's own `getTransport` returns the same instance identity here). -/
def getTransport (c : Connection) : Option Nat :=
  c.transport

end Connection

/-- External stimuli a `Connection` reacts to: the public operations invoked
by the consumer, and a transport instance (identified by the candidate index
`src` at which it was constructed) invoking the shared failure handler. -/
inductive Op where
  | start (callback : Nat)
  | stop
  | dispose
  | updateQuery (authToken contextId : String) (authExpiry : Option Int) (forceAuth : Bool)
  | setUnauthorized (callback : Nat)
  | setStateChanged (callback : Nat)
  | setReceived (callback : Nat)
  | setConnectionSlow (callback : Nat)
  | getQuery
  | onOrphanFound
  | onSubscribeNetworkError
  | getTransport
  | transportFail (src : Nat)
deriving DecidableEq, Repr

/-- One step of the `Connection` under a stimulus.  The failure handler is
the single `onTransportFail` closure shared by every transport instance, so
its behaviour does not depend on `src`. -/
def step (env : Env) (c : Connection) : Op → Connection × List Ev
  | .start callback => c.start callback
  | .stop => c.stop
  | .dispose => c.dispose
  | .updateQuery tok ctx exp force => c.updateQuery tok ctx exp force
  | .setUnauthorized callback => c.setUnauthorizedCallback callback
  | .setStateChanged callback => c.setStateChangedCallback callback
  | .setReceived callback => c.setReceivedCallback callback
  | .setConnectionSlow callback => c.setConnectionSlowCallback callback
  | .getQuery => c.getQuery
  | .onOrphanFound => c.onOrphanFound
  | .onSubscribeNetworkError => c.onSubscribeNetworkError
  | .getTransport => (c, [])
  | .transportFail _ => Connection.onTransportFail env c

/-- Run a sequence of stimuli, accumulating the trace. -/
def run (env : Env) (c : Connection) : List Op → Connection × List Ev
  | [] => (c, [])
  | op :: rest =>
    let r := step env c op
    let r2 := run env r.1 rest
    (r2.1, r.2 ++ r2.2)

/-- The candidate-list indices at which transports were constructed, in
trace order. -/
def constructedIndices (tr : List Ev) : List Nat :=
  tr.filterMap fun ev =>
    match ev with
    | .transportConstructed j _ => some j
    | _ => none

/-- The `src` tags of the `transportFail` stimuli in an op sequence. -/
def failSrcs (ops : List Op) : List Nat :=
  ops.filterMap fun op =>
    match op with
    | .transportFail s => some s
    | _ => none

/-- Count of total-failure callback invocations in a trace. -/
def failCalledCount (tr : List Ev) : Nat :=
  tr.countP fun ev => ev = .failCalled

/-- The connection obtained by constructing with the given arguments and
then running the stimulus sequence `ops`. -/
def connRun (env : Env) (options : Obj) (baseUrl : String) (failCallback : StoredCb)
    (ops : List Op) : Connection :=
  (run env (mkConnection env options baseUrl failCallback).1 ops).1

/-- The complete event trace of constructing a connection and running the
stimulus sequence `ops`. -/
def connTrace (env : Env) (options : Obj) (baseUrl : String) (failCallback : StoredCb)
    (ops : List Op) : List Ev :=
  (mkConnection env options baseUrl failCallback).2 ++
    (run env (mkConnection env options baseUrl failCallback).1 ops).2

/-- The inductive invariant tying a reachable connection state to the trace
that produced it: the cursor is set; the active transport (when present) sits
at the cursor, inside the candidate list, and was constructed; when absent
the cursor has run past the end; constructed indices strictly increase and
never exceed the cursor; every supported candidate at or below the cursor
has been constructed; and once the total-failure callback fired, the search
is exhausted. -/
structure ConnInv (env : Env) (c : Connection) (tr : List Ev) : Prop where
  idx : ∃ i, c.transportIndex = some i
  act : ∀ t, c.transport = some t → c.transportIndex = some t ∧ t < c.transports.length
  act_mem : ∀ t, c.transport = some t → Ev.transportConstructed t c.baseUrl ∈ tr
  exh : c.transport = none → ∀ i, c.transportIndex = some i → c.transports.length ≤ i
  chain : List.Pairwise (· < ·) (constructedIndices tr)
  bound : ∀ j ∈ constructedIndices tr, ∀ i, c.transportIndex = some i → j ≤ i
  tried : ∀ i j e, c.transportIndex = some i → j ≤ i → c.transports.get? j = some e →
      env e.instance_ = true → Ev.transportConstructed j c.baseUrl ∈ tr
  fail_exh : Ev.failCalled ∈ tr → c.transport = none ∧
      ∀ i, c.transportIndex = some i → c.transports.length ≤ i

/-! ## Concrete fixtures (used to instantiate the general theorems) -/

/-- An environment in which every transport class is supported. -/
def envAll : Env := fun _ => true

/-- An environment in which no transport class is supported. -/
def envNone : Env := fun _ => false

/-- An environment in which only the plain-websocket transport class is
supported. -/
def envWebsocketOnly : Env := fun c =>
  match c with
  | .websocketTransport => true
  | _ => false

/-- A two-entry candidate list whose first entry is the (unsupported under
`envWebsocketOnly`) legacy SignalR class and whose second is the websocket
class. -/
def tsWS : List Entry := [⟨[], .signalrTransport⟩, ⟨[], .websocketTransport⟩]

/-- A freshly constructed connection over the default candidate list with
every class supported. -/
def conn0 : Connection := (mkConnection envAll [] "url" .noop).1

/-- `conn0` after a session update and `start`. -/
def connStarted : Connection :=
  (run envAll conn0 [.updateQuery "T1" "C1" (some 1000) false, .start 5]).1

/-- `conn0` after `start` then `stop`. -/
def connStopped : Connection := (run envAll conn0 [.start 5, .stop]).1

/-- `conn0` after `dispose` (still holding its transport reference). -/
def connDisposedT : Connection := (run envAll conn0 [.dispose]).1

/-! ## Basic lemmas about the fallback search -/

theorem createTransportGo_le (env : Env) (ts : List Entry) (b : String) (i : Nat) :
    i ≤ (createTransportGo env ts b i).1 := by
  rw [createTransportGo]
  split
  · simp
  · dsimp only
    split
    · simp
    · have := createTransportGo_le env ts b (i + 1)
      omega
termination_by ts.length - i
decreasing_by omega

theorem createTransportGo_none (env : Env) (ts : List Entry) (b : String) (i : Nat)
    (h : (createTransportGo env ts b i).2.1 = none) :
    ts.length ≤ (createTransportGo env ts b i).1 := by
  rcases hE : createTransportGo env ts b i with ⟨f, o, evs⟩
  rw [hE] at h
  rw [createTransportGo.eq_def] at hE
  simp only at h
  subst h
  split at hE
  · cases hE
    assumption
  · dsimp only at hE
    split at hE
    · cases hE
    · rcases hR : createTransportGo env ts b (i + 1) with ⟨f', o', evs'⟩
      rw [hR] at hE
      cases hE
      have := createTransportGo_none env ts b (i + 1) (by rw [hR])
      rw [hR] at this
      simpa using this
termination_by ts.length - i
decreasing_by omega

theorem createTransportGo_none_unsupported (env : Env) (ts : List Entry) (b : String)
    (i : Nat) (h : (createTransportGo env ts b i).2.1 = none) :
    ∀ j e, i ≤ j → ts.get? j = some e → env e.instance_ = false := by
  intro j e hij hje
  rcases hE : createTransportGo env ts b i with ⟨f, o, evs⟩
  rw [hE] at h
  simp only at h
  subst h
  rw [createTransportGo.eq_def] at hE
  split at hE
  · rename_i hlen
    have hjl : j < ts.length := (List.get?_eq_some.mp hje).1
    omega
  · dsimp only at hE
    split at hE
    · cases hE
    · rename_i hlen hcb
      rcases Nat.eq_or_lt_of_le hij with heq | hlt
      · subst heq
        have hg : ts.get? i = some (ts.get ⟨i, by omega⟩) := List.get?_eq_get _
        rw [hg] at hje
        cases hje
        simpa using hcb
      · rcases hR : createTransportGo env ts b (i + 1) with ⟨f', o', evs'⟩
        rw [hR] at hE
        cases hE
        exact createTransportGo_none_unsupported env ts b (i + 1) (by rw [hR]) j e hlt hje
termination_by ts.length - i
decreasing_by omega

theorem createTransportGo_some (env : Env) (ts : List Entry) (b : String) (i t : Nat)
    (h : (createTransportGo env ts b i).2.1 = some t) :
    (createTransportGo env ts b i).1 = t ∧ i ≤ t ∧
      ∃ e, ts.get? t = some e ∧ env e.instance_ = true := by
  rcases hE : createTransportGo env ts b i with ⟨f, o, evs⟩
  rw [hE] at h
  simp only at h ⊢
  subst h
  rw [createTransportGo.eq_def] at hE
  split at hE
  · cases hE
  · dsimp only at hE
    split at hE
    · rename_i hlen hcb
      cases hE
      refine ⟨rfl, le_refl _, ts.get ⟨i, by omega⟩, List.get?_eq_get _, by simpa using hcb⟩
    · rcases hR : createTransportGo env ts b (i + 1) with ⟨f', o', evs'⟩
      rw [hR] at hE
      cases hE
      have := createTransportGo_some env ts b (i + 1) t (by rw [hR])
      rw [hR] at this
      simp only at this
      exact ⟨this.1, by omega, this.2.2⟩
termination_by ts.length - i
decreasing_by omega

theorem createTransportGo_some_skipped (env : Env) (ts : List Entry) (b : String)
    (i t : Nat) (h : (createTransportGo env ts b i).2.1 = some t) :
    ∀ j e, i ≤ j → j < t → ts.get? j = some e → env e.instance_ = false := by
  intro j e hij hjt hje
  rcases hE : createTransportGo env ts b i with ⟨f, o, evs⟩
  rw [hE] at h
  simp only at h
  subst h
  rw [createTransportGo.eq_def] at hE
  split at hE
  · cases hE
  · dsimp only at hE
    split at hE
    · cases hE
      omega
    · rename_i hlen hcb
      rcases Nat.eq_or_lt_of_le hij with heq | hlt
      · subst heq
        have hg : ts.get? i = some (ts.get ⟨i, by omega⟩) := List.get?_eq_get _
        rw [hg] at hje
        cases hje
        simpa using hcb
      · rcases hR : createTransportGo env ts b (i + 1) with ⟨f', o', evs'⟩
        rw [hR] at hE
        cases hE
        exact createTransportGo_some_skipped env ts b (i + 1) t (by rw [hR]) j e hlt hjt hje
termination_by ts.length - i
decreasing_by omega

theorem createTransportGo_constructed_none (env : Env) (ts : List Entry) (b : String)
    (i : Nat) (h : (createTransportGo env ts b i).2.1 = none) :
    constructedIndices (createTransportGo env ts b i).2.2 = [] := by
  rcases hE : createTransportGo env ts b i with ⟨f, o, evs⟩
  rw [hE] at h
  simp only at h ⊢
  subst h
  rw [createTransportGo.eq_def] at hE
  split at hE
  · cases hE
    simp [constructedIndices]
  · dsimp only at hE
    split at hE
    · cases hE
    · rcases hR : createTransportGo env ts b (i + 1) with ⟨f', o', evs'⟩
      rw [hR] at hE
      cases hE
      have := createTransportGo_constructed_none env ts b (i + 1) (by rw [hR])
      rw [hR] at this
      simp only at this
      simpa [constructedIndices, List.filterMap_cons] using this
termination_by ts.length - i
decreasing_by omega

theorem createTransportGo_constructed_some (env : Env) (ts : List Entry) (b : String)
    (i t : Nat) (h : (createTransportGo env ts b i).2.1 = some t) :
    constructedIndices (createTransportGo env ts b i).2.2 = [t] ∧
      Ev.transportConstructed t b ∈ (createTransportGo env ts b i).2.2 := by
  rcases hE : createTransportGo env ts b i with ⟨f, o, evs⟩
  rw [hE] at h
  simp only at h ⊢
  subst h
  rw [createTransportGo.eq_def] at hE
  split at hE
  · cases hE
  · dsimp only at hE
    split at hE
    · cases hE
      simp [constructedIndices, List.filterMap_cons]
    · rcases hR : createTransportGo env ts b (i + 1) with ⟨f', o', evs'⟩
      rw [hR] at hE
      cases hE
      have := createTransportGo_constructed_some env ts b (i + 1) t (by rw [hR])
      rw [hR] at this
      simp only at this
      constructor
      · simpa [constructedIndices, List.filterMap_cons] using this.1
      · simp [this.2]
termination_by ts.length - i
decreasing_by omega

theorem createTransportGo_failCalledCount (env : Env) (ts : List Entry) (b : String)
    (i : Nat) : failCalledCount (createTransportGo env ts b i).2.2 = 0 := by
  rw [createTransportGo.eq_def]
  split
  · simp [failCalledCount]
  · dsimp only
    split
    · simp [failCalledCount]
    · have := createTransportGo_failCalledCount env ts b (i + 1)
      simpa [failCalledCount] using this
termination_by ts.length - i
decreasing_by omega

theorem createTransportGo_success_trace (env : Env) (ts : List Entry) (b : String)
    (s k : Nat) (hs : s ≤ k) (hk : k < ts.length)
    (hskip : ∀ j e, s ≤ j → j < k → ts.get? j = some e → env e.instance_ = false)
    (hsup : ∀ e, ts.get? k = some e → env e.instance_ = true) :
    createTransportGo env ts b s =
      (k, some k, (List.range' s (k + 1 - s)).map Ev.isSupportedChecked ++
        [Ev.transportConstructed k b]) := by
  rw [createTransportGo.eq_def]
  have hsl : ¬ ts.length ≤ s := by omega
  rw [dif_neg hsl]
  dsimp only
  rcases Nat.eq_or_lt_of_le hs with heq | hlt
  · subst heq
    have : env (ts.get ⟨s, by omega⟩).instance_ = true :=
      hsup _ (List.get?_eq_get _)
    rw [if_pos this]
    have : s + 1 - s = 1 := by omega
    simp [this, List.range']
  · have : env (ts.get ⟨s, by omega⟩).instance_ = false :=
      hskip s _ (le_refl s) hlt (List.get?_eq_get _)
    rw [if_neg (by simpa using this)]
    rw [createTransportGo_success_trace env ts b (s + 1) k hlt hk
      (fun j e h1 h2 h3 => hskip j e (by omega) h2 h3) hsup]
    have h1 : k + 1 - s = (k + 1 - (s + 1)) + 1 := by omega
    rw [h1, List.range'_succ]
    simp
termination_by k - s
decreasing_by omega

/-! ## Lemmas about object merge and the candidate-list builder -/

theorem objGet_append (a b : Obj) (k : String) :
    objGet (a ++ b) k =
      match objGet b k with
      | some v => some v
      | none => objGet a k := by
  induction a with
  | nil =>
    simp only [List.nil_append]
    cases objGet b k <;> simp [objGet]
  | cons p rest ih =>
    rcases p with ⟨k', v⟩
    cases hb : objGet b k <;> cases hr : objGet rest k <;>
      simp_all [objGet]

/-- `{...a, ...b}` looks keys up in `b` first, falling back to `a`:
the second operand's keys win on conflict. -/
theorem jsSpread_get (a b : Obj) (k : String) :
    objGet (jsSpread a b) k =
      match objGet b k with
      | some v => some v
      | none => objGet a k :=
  objGet_append a b k

theorem getSupportedTransports_foldl (names : List TransportName) (acc : List Entry) :
    names.foldl
      (fun supported transportName =>
        match TRANSPORT_NAME_MAP transportName with
        | some e => supported ++ [e]
        | none => supported)
      acc = acc ++ names.filterMap TRANSPORT_NAME_MAP := by
  induction names generalizing acc with
  | nil => simp
  | cons n rest ih =>
    cases h : TRANSPORT_NAME_MAP n <;>
      simp [List.foldl_cons, h, ih, List.filterMap_cons]

theorem getSupportedTransports_some_eq (names : List TransportName) :
    getSupportedTransports (some names) = names.filterMap TRANSPORT_NAME_MAP := by
  simpa [getSupportedTransports] using getSupportedTransports_foldl names []

theorem getSupportedTransports_none_eq :
    getSupportedTransports none = DEFAULT_TRANSPORTS.filterMap TRANSPORT_NAME_MAP := by
  simpa [getSupportedTransports] using getSupportedTransports_foldl DEFAULT_TRANSPORTS []

/-! ## Claim theorems -/

/-- C9: for every caller-supplied ordered preference list of transport-type
identifiers, the built candidate list is exactly the subsequence of entries
whose identifiers are known to the registry, in the caller's order (unknown
identifiers dropped, here: `filterMap` over the registry); and with no
preference list it is built from the default order
`[plain-websockets, legacy-signalr-websockets]`; including the spec's
concrete example with an unknown identifier. -/
theorem claim_C9 :
    (∀ names : List TransportName,
        getSupportedTransports (some names) = names.filterMap TRANSPORT_NAME_MAP)
    ∧ getSupportedTransports none = DEFAULT_TRANSPORTS.filterMap TRANSPORT_NAME_MAP
    ∧ getSupportedTransports none =
        [⟨[], .websocketTransport⟩, ⟨[], .signalrTransport⟩]
    ∧ getSupportedTransports
        (some [.unknown "unknown-id", .legacySignalrLongPolling, .plainWebsockets]) =
        [⟨[], .signalrTransport⟩, ⟨[], .websocketTransport⟩] := by
  refine ⟨getSupportedTransports_some_eq, getSupportedTransports_none_eq, ?_, ?_⟩ <;> rfl

/-- C6: for a candidate list whose entries below `k` are unsupported and
whose entry at `k` is supported, `createTransport` advances the cursor (from
unset to 0, else by one), returns null past the last index, probes
`isSupported` exactly once per inspected entry (the skipped ones constructing
nothing), constructs the entry at `k` with the connection's base URL (the
shared `onTransportFail` handler being the one every construction receives),
and a `Connection` built over such a list gets active transport `k`. -/
theorem claim_C6 (env : Env) (ts : List Entry) (baseUrl : String) (k : Nat)
    (hk : k < ts.length)
    (hskip : ∀ j ∈ List.range k, ∀ e ∈ ts.get? j, env e.instance_ = false)
    (hsup : ∀ e ∈ ts.get? k, env e.instance_ = true) :
    createTransport env ts baseUrl none = createTransportGo env ts baseUrl 0
    ∧ (∀ i, createTransport env ts baseUrl (some i) = createTransportGo env ts baseUrl (i + 1))
    ∧ (∀ i, ts.length ≤ i → createTransportGo env ts baseUrl i = (i, none, []))
    ∧ createTransport env ts baseUrl none =
        (k, some k,
          (List.range (k + 1)).map Ev.isSupportedChecked ++
            [Ev.transportConstructed k baseUrl])
    ∧ (∀ options failCallback,
        getSupportedTransports (optionsTransport options) = ts →
        (mkConnection env options baseUrl failCallback).1.transport = some k) := by
  have hmain : createTransport env ts baseUrl none =
      (k, some k,
        (List.range (k + 1)).map Ev.isSupportedChecked ++
          [Ev.transportConstructed k baseUrl]) := by
    unfold createTransport
    rw [createTransportGo_success_trace env ts baseUrl 0 k (Nat.zero_le k) hk
      (fun j e _ hjk hje =>
        hskip j (List.mem_range.mpr hjk) e (by rw [Option.mem_def]; exact hje))
      (fun e hje => hsup e (by rw [Option.mem_def]; exact hje))]
    simp [List.range_eq_range']
  refine ⟨rfl, fun i => rfl, ?_, hmain, ?_⟩
  · intro i hi
    rw [createTransportGo.eq_def, dif_pos hi]
  · intro options failCallback hts
    simp only [mkConnection, hts, hmain]

/-- Witness for C6: over `tsWS` with only websockets supported, the search
skips index 0 and constructs index 1. -/
theorem claim_C6_witness :
    (1 < tsWS.length)
    ∧ (∀ j ∈ List.range 1, ∀ e ∈ tsWS.get? j, envWebsocketOnly e.instance_ = false)
    ∧ (∀ e ∈ tsWS.get? 1, envWebsocketOnly e.instance_ = true)
    ∧ createTransport envWebsocketOnly tsWS "url" none =
        (1, some 1, (List.range 2).map Ev.isSupportedChecked ++
          [Ev.transportConstructed 1 "url"]) :=
  ⟨by decide, by decide, by decide,
    (claim_C6 envWebsocketOnly tsWS "url" 1 (by decide) (by decide) (by decide)).2.2.2.1⟩

/-- C4 counterexample: the claim that once `disposed` no public operation
moves the lifecycle state away from `disposed` is false: `dispose()` followed
by `start()` on a connection that still has an active transport sets the
state to `started`. -/
theorem claim_C4_counterexample :
    (run envAll (mkConnection envAll [] "url" .noop).1 [.dispose, .start 7]).1.state
      = ConnState.started := by
  simp [run, step, mkConnection, Connection.dispose, Connection.start,
    createTransport, createTransportGo, getSupportedTransports, optionsTransport,
    objGet, envAll, DEFAULT_TRANSPORTS, TRANSPORT_NAME_MAP]

/-- C4 amended: once `disposed`, every public operation leaves the state
`disposed`, except `start` and `stop` invoked while an active transport
exists, which move it to `started` / `stopped` respectively. -/
theorem claim_C4_amended (env : Env) (c : Connection) (h : c.state = .disposed) (op : Op) :
    (step env c op).1.state = .disposed
    ∨ (c.transport ≠ none ∧ (∃ cb, op = .start cb) ∧ (step env c op).1.state = .started)
    ∨ (c.transport ≠ none ∧ op = .stop ∧ (step env c op).1.state = .stopped) := by
  cases op with
  | start cb =>
    cases hc : c.transport with
    | none => exact Or.inl (by simp [step, Connection.start, hc, h])
    | some t =>
      exact Or.inr (Or.inl ⟨by simp [hc], ⟨cb, rfl⟩, by simp [step, Connection.start, hc]⟩)
  | stop =>
    cases hc : c.transport with
    | none => exact Or.inl (by simp [step, Connection.stop, hc, h])
    | some t =>
      exact Or.inr (Or.inr ⟨by simp [hc], rfl, by simp [step, Connection.stop, hc]⟩)
  | dispose => exact Or.inl (by simp [step, Connection.dispose])
  | updateQuery tok ctx exp force =>
    exact Or.inl (by cases hc : c.transport <;> simp [step, Connection.updateQuery, hc, h])
  | setUnauthorized cb =>
    exact Or.inl (by cases hc : c.transport <;> simp [step, Connection.setUnauthorizedCallback, hc, h])
  | setStateChanged cb =>
    exact Or.inl (by cases hc : c.transport <;> simp [step, Connection.setStateChangedCallback, hc, h])
  | setReceived cb =>
    exact Or.inl (by cases hc : c.transport <;> simp [step, Connection.setReceivedCallback, hc, h])
  | setConnectionSlow cb =>
    exact Or.inl (by cases hc : c.transport <;> simp [step, Connection.setConnectionSlowCallback, hc, h])
  | getQuery =>
    exact Or.inl (by cases hc : c.transport <;> simp [step, Connection.getQuery, hc, h])
  | onOrphanFound =>
    exact Or.inl (by cases hc : c.transport <;> simp [step, Connection.onOrphanFound, hc, h])
  | onSubscribeNetworkError =>
    exact Or.inl (by cases hc : c.transport <;> simp [step, Connection.onSubscribeNetworkError, hc, h])
  | getTransport => exact Or.inl (by simp [step, h])
  | transportFail s =>
    refine Or.inl ?_
    simp only [step, Connection.onTransportFail]
    split <;> simp [h]

/-- Witness for C4 amended: a disposed connection stays disposed under
`getQuery`. -/
theorem claim_C4_amended_witness :
    ((step envAll conn0 .dispose).1.state = ConnState.disposed)
    ∧ ((step envAll (step envAll conn0 .dispose).1 .getQuery).1.state = .disposed
       ∨ ((step envAll conn0 .dispose).1.transport ≠ none
            ∧ (∃ cb, Op.getQuery = Op.start cb)
            ∧ (step envAll (step envAll conn0 .dispose).1 .getQuery).1.state = .started)
       ∨ ((step envAll conn0 .dispose).1.transport ≠ none
            ∧ Op.getQuery = Op.stop
            ∧ (step envAll (step envAll conn0 .dispose).1 .getQuery).1.state = .stopped)) :=
  ⟨rfl, claim_C4_amended envAll (step envAll conn0 .dispose).1 rfl .getQuery⟩

/-- The fallback search characterizes its success value: the final cursor is
the constructed index, whose entry exists and is supported. -/
theorem createTransport_some (env : Env) (ts : List Entry) (b : String)
    (idx : Option Nat) (t : Nat)
    (h : (createTransport env ts b idx).2.1 = some t) :
    (createTransport env ts b idx).1 = t ∧
      ∃ e, ts.get? t = some e ∧ env e.instance_ = true := by
  unfold createTransport at h ⊢
  exact ⟨(createTransportGo_some _ _ _ _ _ h).1, (createTransportGo_some _ _ _ _ _ h).2.2⟩

/-- The fallback search emits only capability probes and constructions. -/
theorem createTransportGo_events_shape (env : Env) (ts : List Entry) (b : String)
    (i : Nat) :
    ∀ ev ∈ (createTransportGo env ts b i).2.2,
      (∃ j, ev = Ev.isSupportedChecked j) ∨ (∃ j, ev = Ev.transportConstructed j b) := by
  intro ev hev
  rw [createTransportGo.eq_def] at hev
  split at hev
  · simp at hev
  · dsimp only at hev
    split at hev
    · simp only [List.mem_cons, List.not_mem_nil, or_false] at hev
      rcases hev with h | h
      · exact Or.inl ⟨i, h⟩
      · exact Or.inr ⟨i, h⟩
    · rcases List.mem_cons.mp hev with h | h
      · exact Or.inl ⟨i, h⟩
      · exact createTransportGo_events_shape env ts b (i + 1) ev h
termination_by ts.length - i
decreasing_by omega

/-- C3: in state `started`, when the active transport fails and a viable
next candidate exists, the replacement transport gets the four forwarding
callbacks re-registered, then `updateQuery` with the stored session triple,
then `start` with the merge of the new candidate's default options and the
connection's options (where the second spread operand — the connection's
options — wins on key conflict) and the very same stored start-completion
callback. -/
theorem claim_C3 (env : Env) (c : Connection) (t' : Nat)
    (hStarted : c.state = .started)
    (hRepl : (createTransport env c.transports c.baseUrl c.transportIndex).2.1 = some t') :
    (Connection.onTransportFail env c).2 =
      Ev.logInfo "Transport failed" ::
        (createTransport env c.transports c.baseUrl c.transportIndex).2.2 ++
        [Ev.logDebug "Next supported Transport found",
         Ev.tSetReceived t' c.receiveCallback,
         Ev.tSetStateChanged t' c.stateChangedCallback,
         Ev.tSetUnauthorized t' c.unauthorizedCallback,
         Ev.tSetConnectionSlow t' c.connectionSlowCallback,
         Ev.tUpdateQuery t' c.authToken c.contextId c.authExpiry none,
         Ev.tStart t' (jsSpread (optionsAtIndex c.transports (some t')) c.options)
           c.startCallback]
    ∧ (∀ a b k, objGet (jsSpread a b) k =
        match objGet b k with
        | some v => some v
        | none => objGet a k) := by
  have hfin := (createTransport_some env c.transports c.baseUrl c.transportIndex t' hRepl).1
  constructor
  · simp only [Connection.onTransportFail]
    rcases hE : createTransport env c.transports c.baseUrl c.transportIndex with ⟨f, o, evs⟩
    rw [hE] at hRepl hfin
    simp only at hRepl hfin
    subst hRepl
    subst hfin
    simp [hStarted]
  · exact fun a b k => jsSpread_get a b k

/-- Witness for C3 on a started connection over the default candidate list
whose websocket transport fails over to the legacy SignalR one. -/
theorem claim_C3_witness :
    connStarted.state = ConnState.started
    ∧ (createTransport envAll connStarted.transports connStarted.baseUrl
        connStarted.transportIndex).2.1 = some 1
    ∧ ((Connection.onTransportFail envAll connStarted).2 =
        Ev.logInfo "Transport failed" ::
          (createTransport envAll connStarted.transports connStarted.baseUrl
            connStarted.transportIndex).2.2 ++
          [Ev.logDebug "Next supported Transport found",
           Ev.tSetReceived 1 connStarted.receiveCallback,
           Ev.tSetStateChanged 1 connStarted.stateChangedCallback,
           Ev.tSetUnauthorized 1 connStarted.unauthorizedCallback,
           Ev.tSetConnectionSlow 1 connStarted.connectionSlowCallback,
           Ev.tUpdateQuery 1 connStarted.authToken connStarted.contextId
             connStarted.authExpiry none,
           Ev.tStart 1 (jsSpread (optionsAtIndex connStarted.transports (some 1))
             connStarted.options) connStarted.startCallback]
      ∧ (∀ a b k, objGet (jsSpread a b) k =
          match objGet b k with
          | some v => some v
          | none => objGet a k)) := by
  have h1 : connStarted.state = ConnState.started := by
    simp [connStarted, conn0, run, step, mkConnection, Connection.start,
      Connection.updateQuery, createTransport, createTransportGo,
      getSupportedTransports, optionsTransport, objGet, envAll,
      DEFAULT_TRANSPORTS, TRANSPORT_NAME_MAP]
  have h2 : (createTransport envAll connStarted.transports connStarted.baseUrl
      connStarted.transportIndex).2.1 = some 1 := by
    simp [connStarted, conn0, run, step, mkConnection, Connection.start,
      Connection.updateQuery, createTransport, createTransportGo,
      getSupportedTransports, optionsTransport, objGet, envAll,
      DEFAULT_TRANSPORTS, TRANSPORT_NAME_MAP]
  exact ⟨h1, h2, claim_C3 envAll connStarted 1 h1 h2⟩

/-- C8: in state `stopped`, a transport failure with a viable next candidate
still constructs the replacement and re-registers the four forwarding
callbacks on it, but neither `updateQuery` nor `start` is invoked on it: the
fallback search continues, auto-restart does not. -/
theorem claim_C8 (env : Env) (c : Connection) (t' : Nat)
    (hStopped : c.state = .stopped)
    (hRepl : (createTransport env c.transports c.baseUrl c.transportIndex).2.1 = some t') :
    (Connection.onTransportFail env c).2 =
      Ev.logInfo "Transport failed" ::
        (createTransport env c.transports c.baseUrl c.transportIndex).2.2 ++
        [Ev.logDebug "Next supported Transport found",
         Ev.tSetReceived t' c.receiveCallback,
         Ev.tSetStateChanged t' c.stateChangedCallback,
         Ev.tSetUnauthorized t' c.unauthorizedCallback,
         Ev.tSetConnectionSlow t' c.connectionSlowCallback]
    ∧ (Connection.onTransportFail env c).1.transport = some t'
    ∧ (∀ x a b e f, Ev.tUpdateQuery x a b e f ∉ (Connection.onTransportFail env c).2)
    ∧ (∀ x o cb, Ev.tStart x o cb ∉ (Connection.onTransportFail env c).2) := by
  have hfin := (createTransport_some env c.transports c.baseUrl c.transportIndex t' hRepl).1
  have hshape := createTransportGo_events_shape env c.transports c.baseUrl
    (match c.transportIndex with | none => 0 | some j => j + 1)
  have htr : (Connection.onTransportFail env c).2 =
      Ev.logInfo "Transport failed" ::
        (createTransport env c.transports c.baseUrl c.transportIndex).2.2 ++
        [Ev.logDebug "Next supported Transport found",
         Ev.tSetReceived t' c.receiveCallback,
         Ev.tSetStateChanged t' c.stateChangedCallback,
         Ev.tSetUnauthorized t' c.unauthorizedCallback,
         Ev.tSetConnectionSlow t' c.connectionSlowCallback] := by
    simp only [Connection.onTransportFail]
    rcases hE : createTransport env c.transports c.baseUrl c.transportIndex with ⟨f, o, evs⟩
    rw [hE] at hRepl hfin
    simp only at hRepl hfin
    subst hRepl
    subst hfin
    simp [hStopped]
  have hact : (Connection.onTransportFail env c).1.transport = some t' := by
    simp only [Connection.onTransportFail]
    rcases hE : createTransport env c.transports c.baseUrl c.transportIndex with ⟨f, o, evs⟩
    rw [hE] at hRepl
    simp only at hRepl
    subst hRepl
    simp
  refine ⟨htr, hact, ?_, ?_⟩
  · intro x a b e f hmem
    rw [htr] at hmem
    rcases List.mem_cons.mp hmem with h | h
    · cases h
    · rcases List.mem_append.mp h with h2 | h2
      · rcases hshape _ h2 with ⟨j, hj⟩ | ⟨j, hj⟩ <;> cases hj
      · simp at h2
  · intro x o cb hmem
    rw [htr] at hmem
    rcases List.mem_cons.mp hmem with h | h
    · cases h
    · rcases List.mem_append.mp h with h2 | h2
      · rcases hshape _ h2 with ⟨j, hj⟩ | ⟨j, hj⟩ <;> cases hj
      · simp at h2

/-- Witness for C8 on a stopped connection over the default candidate list. -/
theorem claim_C8_witness :
    connStopped.state = ConnState.stopped
    ∧ (createTransport envAll connStopped.transports connStopped.baseUrl
        connStopped.transportIndex).2.1 = some 1
    ∧ ((Connection.onTransportFail envAll connStopped).2 =
        Ev.logInfo "Transport failed" ::
          (createTransport envAll connStopped.transports connStopped.baseUrl
            connStopped.transportIndex).2.2 ++
          [Ev.logDebug "Next supported Transport found",
           Ev.tSetReceived 1 connStopped.receiveCallback,
           Ev.tSetStateChanged 1 connStopped.stateChangedCallback,
           Ev.tSetUnauthorized 1 connStopped.unauthorizedCallback,
           Ev.tSetConnectionSlow 1 connStopped.connectionSlowCallback]
      ∧ (Connection.onTransportFail envAll connStopped).1.transport = some 1
      ∧ (∀ x a b e f,
          Ev.tUpdateQuery x a b e f ∉ (Connection.onTransportFail envAll connStopped).2)
      ∧ (∀ x o cb,
          Ev.tStart x o cb ∉ (Connection.onTransportFail envAll connStopped).2)) := by
  have h1 : connStopped.state = ConnState.stopped := by
    simp [connStopped, conn0, run, step, mkConnection, Connection.start,
      Connection.stop, createTransport, createTransportGo,
      getSupportedTransports, optionsTransport, objGet, envAll,
      DEFAULT_TRANSPORTS, TRANSPORT_NAME_MAP]
  have h2 : (createTransport envAll connStopped.transports connStopped.baseUrl
      connStopped.transportIndex).2.1 = some 1 := by
    simp [connStopped, conn0, run, step, mkConnection, Connection.start,
      Connection.stop, createTransport, createTransportGo,
      getSupportedTransports, optionsTransport, objGet, envAll,
      DEFAULT_TRANSPORTS, TRANSPORT_NAME_MAP]
  exact ⟨h1, h2, claim_C8 envAll connStopped 1 h1 h2⟩

/-- C10: after a fallback with a replacement, the received, state-changed and
connection-slow slots are re-registered with callable values (`NOOP` when the
consumer never set them), while a never-set unauthorized callback is
re-registered as `undefined` (`none`) rather than a no-op function. -/
theorem claim_C10 (env : Env) (c : Connection) (t' : Nat)
    (hUnauth : c.unauthorizedCallback = none)
    (hRecv : c.receiveCallback = .noop)
    (hSt : c.stateChangedCallback = .noop)
    (hSlow : c.connectionSlowCallback = .noop)
    (hRepl : (createTransport env c.transports c.baseUrl c.transportIndex).2.1 = some t') :
    Ev.tSetUnauthorized t' none ∈ (Connection.onTransportFail env c).2
    ∧ Ev.tSetReceived t' .noop ∈ (Connection.onTransportFail env c).2
    ∧ Ev.tSetStateChanged t' .noop ∈ (Connection.onTransportFail env c).2
    ∧ Ev.tSetConnectionSlow t' .noop ∈ (Connection.onTransportFail env c).2 := by
  simp only [Connection.onTransportFail]
  rcases hE : createTransport env c.transports c.baseUrl c.transportIndex with ⟨f, o, evs⟩
  rw [hE] at hRepl
  simp only at hRepl
  subst hRepl
  refine ⟨?_, ?_, ?_, ?_⟩ <;> simp [hUnauth, hRecv, hSt, hSlow]

/-- Witness for C10 on a fresh default connection whose consumer never set
any callback. -/
theorem claim_C10_witness :
    conn0.unauthorizedCallback = none
    ∧ conn0.receiveCallback = StoredCb.noop
    ∧ conn0.stateChangedCallback = StoredCb.noop
    ∧ conn0.connectionSlowCallback = StoredCb.noop
    ∧ (createTransport envAll conn0.transports conn0.baseUrl
        conn0.transportIndex).2.1 = some 1
    ∧ (Ev.tSetUnauthorized 1 none ∈ (Connection.onTransportFail envAll conn0).2
      ∧ Ev.tSetReceived 1 StoredCb.noop ∈ (Connection.onTransportFail envAll conn0).2
      ∧ Ev.tSetStateChanged 1 StoredCb.noop ∈ (Connection.onTransportFail envAll conn0).2
      ∧ Ev.tSetConnectionSlow 1 StoredCb.noop ∈ (Connection.onTransportFail envAll conn0).2) := by
  have h1 : conn0.unauthorizedCallback = none := by
    simp [conn0, mkConnection, createTransport, createTransportGo,
      getSupportedTransports, optionsTransport, objGet, envAll,
      DEFAULT_TRANSPORTS, TRANSPORT_NAME_MAP]
  have h2 : conn0.receiveCallback = StoredCb.noop := by
    simp [conn0, mkConnection, createTransport, createTransportGo,
      getSupportedTransports, optionsTransport, objGet, envAll,
      DEFAULT_TRANSPORTS, TRANSPORT_NAME_MAP]
  have h3 : conn0.stateChangedCallback = StoredCb.noop := by
    simp [conn0, mkConnection, createTransport, createTransportGo,
      getSupportedTransports, optionsTransport, objGet, envAll,
      DEFAULT_TRANSPORTS, TRANSPORT_NAME_MAP]
  have h4 : conn0.connectionSlowCallback = StoredCb.noop := by
    simp [conn0, mkConnection, createTransport, createTransportGo,
      getSupportedTransports, optionsTransport, objGet, envAll,
      DEFAULT_TRANSPORTS, TRANSPORT_NAME_MAP]
  have h5 : (createTransport envAll conn0.transports conn0.baseUrl
      conn0.transportIndex).2.1 = some 1 := by
    simp [conn0, mkConnection, createTransport, createTransportGo,
      getSupportedTransports, optionsTransport, objGet, envAll,
      DEFAULT_TRANSPORTS, TRANSPORT_NAME_MAP]
  exact ⟨h1, h2, h3, h4, h5, claim_C10 envAll conn0 1 h1 h2 h3 h4 h5⟩

/-- C7 counterexample: the claim that all five consumer-settable callbacks
(including the start-completion one) are wrapped with the disposal guard is
false: `start()` stores the consumer callback bare, and after `dispose()`
invoking it still reaches the consumer. -/
theorem claim_C7_counterexample :
    ((run envAll conn0 [.start 5, .dispose]).1.startCallback = .raw 5)
    ∧ invokeStored (run envAll conn0 [.start 5, .dispose]).1
        ((run envAll conn0 [.start 5, .dispose]).1.startCallback) []
        = [.consumerCalled 5 []] := by
  constructor <;>
    simp [run, step, conn0, mkConnection, Connection.start, Connection.dispose,
      createTransport, createTransportGo, getSupportedTransports, optionsTransport,
      objGet, envAll, DEFAULT_TRANSPORTS, TRANSPORT_NAME_MAP, invokeStored,
      ensureValidState]

/-- C7 amended: each of the four setter-installed callbacks (received,
state-changed, unauthorized, connection-slow) is wrapped with the disposal
guard before being stored and registered on the active transport, and the
wrapper forwards all arguments unchanged while the state is not disposed;
the start-completion callback, by contrast, is stored and handed to the
transport unwrapped. -/
theorem claim_C7_amended (c : Connection) (t : Nat) (callback : Nat)
    (h : c.transport = some t) :
    ((c.setReceivedCallback callback).1.receiveCallback
        = .wrapped "receivedCallback" callback
      ∧ (c.setReceivedCallback callback).2
        = [.tSetReceived t (.wrapped "receivedCallback" callback)])
    ∧ ((c.setStateChangedCallback callback).1.stateChangedCallback
        = .wrapped "stateChangedCallback" callback
      ∧ (c.setStateChangedCallback callback).2
        = [.tSetStateChanged t (.wrapped "stateChangedCallback" callback)])
    ∧ ((c.setUnauthorizedCallback callback).1.unauthorizedCallback
        = some (.wrapped "unauthorizedCallback" callback)
      ∧ (c.setUnauthorizedCallback callback).2
        = [.tSetUnauthorized t (some (.wrapped "unauthorizedCallback" callback))])
    ∧ ((c.setConnectionSlowCallback callback).1.connectionSlowCallback
        = .wrapped "connectionSlowCallback" callback
      ∧ (c.setConnectionSlowCallback callback).2
        = [.tSetConnectionSlow t (.wrapped "connectionSlowCallback" callback)])
    ∧ ((c.start callback).1.startCallback = .raw callback
      ∧ (c.start callback).2
        = [.tStart t (jsSpread (optionsAtIndex c.transports c.transportIndex) c.options)
            (.raw callback)])
    ∧ (∀ c' kind consumer args, c'.state ≠ ConnState.disposed →
        invokeStored c' (.wrapped kind consumer) args = [.consumerCalled consumer args]) := by
  refine ⟨?_, ?_, ?_, ?_, ?_, ?_⟩
  · exact ⟨by simp [Connection.setReceivedCallback, h],
      by simp [Connection.setReceivedCallback, h]⟩
  · exact ⟨by simp [Connection.setStateChangedCallback, h],
      by simp [Connection.setStateChangedCallback, h]⟩
  · exact ⟨by simp [Connection.setUnauthorizedCallback, h],
      by simp [Connection.setUnauthorizedCallback, h]⟩
  · exact ⟨by simp [Connection.setConnectionSlowCallback, h],
      by simp [Connection.setConnectionSlowCallback, h]⟩
  · exact ⟨by simp [Connection.start, h], by simp [Connection.start, h]⟩
  · intro c' kind consumer args hnd
    simp [invokeStored, ensureValidState, hnd]

/-- Witness for C7 amended on a fresh default connection. -/
theorem claim_C7_amended_witness :
    conn0.transport = some 0
    ∧ (((conn0.setReceivedCallback 3).1.receiveCallback
          = .wrapped "receivedCallback" 3
        ∧ (conn0.setReceivedCallback 3).2
          = [.tSetReceived 0 (.wrapped "receivedCallback" 3)])
      ∧ ((conn0.setStateChangedCallback 3).1.stateChangedCallback
          = .wrapped "stateChangedCallback" 3
        ∧ (conn0.setStateChangedCallback 3).2
          = [.tSetStateChanged 0 (.wrapped "stateChangedCallback" 3)])
      ∧ ((conn0.setUnauthorizedCallback 3).1.unauthorizedCallback
          = some (.wrapped "unauthorizedCallback" 3)
        ∧ (conn0.setUnauthorizedCallback 3).2
          = [.tSetUnauthorized 0 (some (.wrapped "unauthorizedCallback" 3))])
      ∧ ((conn0.setConnectionSlowCallback 3).1.connectionSlowCallback
          = .wrapped "connectionSlowCallback" 3
        ∧ (conn0.setConnectionSlowCallback 3).2
          = [.tSetConnectionSlow 0 (.wrapped "connectionSlowCallback" 3)])
      ∧ ((conn0.start 3).1.startCallback = .raw 3
        ∧ (conn0.start 3).2
          = [.tStart 0 (jsSpread (optionsAtIndex conn0.transports conn0.transportIndex)
              conn0.options) (.raw 3)])
      ∧ (∀ c' kind consumer args, c'.state ≠ ConnState.disposed →
          invokeStored c' (.wrapped kind consumer) args = [.consumerCalled consumer args])) := by
  have h : conn0.transport = some 0 := by
    simp [conn0, mkConnection, createTransport, createTransportGo,
      getSupportedTransports, optionsTransport, objGet, envAll,
      DEFAULT_TRANSPORTS, TRANSPORT_NAME_MAP]
  exact ⟨h, claim_C7_amended conn0 0 3 h⟩

/-- C2 counterexample: the claim that after `dispose()` every forwarding
path including start-completion is suppressed is false: the start-completion
callback is handed to the transport unwrapped, so invoking it after
`dispose()` still reaches the consumer (and is neither logged nor dropped). -/
theorem claim_C2_counterexample :
    invokeStored (run envAll conn0 [.start 9, .dispose]).1
        ((run envAll conn0 [.start 9, .dispose]).1.startCallback) [.str "payload"]
      = [.consumerCalled 9 [.str "payload"]] := by
  simp [run, step, conn0, mkConnection, Connection.start, Connection.dispose,
    createTransport, createTransportGo, getSupportedTransports, optionsTransport,
    objGet, envAll, DEFAULT_TRANSPORTS, TRANSPORT_NAME_MAP, invokeStored,
    ensureValidState]

/-- C2 amended: after `dispose()`, any invocation of a guard-wrapped
forwarding path (received, state-changed, unauthorized, connection-slow)
while the connection retains a transport reference logs one warning, never
reaches the consumer and never throws; when the transport reference is null
the guard's own warning-detail access throws instead (and still nothing
reaches the consumer); the start-completion path is not guarded at all (see
the counterexample). -/
theorem claim_C2_amended (c : Connection) (t : Nat)
    (hDisp : c.state = .disposed) (hT : c.transport = some t) :
    (∀ kind consumer args,
        invokeStored c (.wrapped kind consumer) args = [.logWarn kind])
    ∧ (∀ kind consumer args, Ev.jsThrow ∉ invokeStored c (.wrapped kind consumer) args)
    ∧ (∀ kind consumer args k as2,
        Ev.consumerCalled k as2 ∉ invokeStored c (.wrapped kind consumer) args)
    ∧ (∀ c2 : Connection, c2.state = .disposed → c2.transport = none →
        ∀ kind consumer args,
          invokeStored c2 (.wrapped kind consumer) args = [Ev.jsThrow]) := by
  refine ⟨?_, ?_, ?_, ?_⟩
  · intro kind consumer args
    simp [invokeStored, ensureValidState, hDisp, hT]
  · intro kind consumer args
    simp [invokeStored, ensureValidState, hDisp, hT]
  · intro kind consumer args k as2
    simp [invokeStored, ensureValidState, hDisp, hT]
  · intro c2 h1 h2 kind consumer args
    simp [invokeStored, ensureValidState, h1, h2]

/-- Witness for C2 amended on a disposed connection that still holds its
transport reference. -/
theorem claim_C2_amended_witness :
    connDisposedT.state = ConnState.disposed
    ∧ connDisposedT.transport = some 0
    ∧ ((∀ kind consumer args,
          invokeStored connDisposedT (.wrapped kind consumer) args = [.logWarn kind])
      ∧ (∀ kind consumer args,
          Ev.jsThrow ∉ invokeStored connDisposedT (.wrapped kind consumer) args)
      ∧ (∀ kind consumer args k as2,
          Ev.consumerCalled k as2 ∉ invokeStored connDisposedT (.wrapped kind consumer) args)
      ∧ (∀ c2 : Connection, c2.state = .disposed → c2.transport = none →
          ∀ kind consumer args,
            invokeStored c2 (.wrapped kind consumer) args = [Ev.jsThrow])) := by
  have h1 : connDisposedT.state = ConnState.disposed := rfl
  have h2 : connDisposedT.transport = some 0 := by
    simp [connDisposedT, conn0, run, step, Connection.dispose, mkConnection,
      createTransport, createTransportGo, getSupportedTransports, optionsTransport,
      objGet, envAll, DEFAULT_TRANSPORTS, TRANSPORT_NAME_MAP]
  exact ⟨h1, h2, claim_C2_amended connDisposedT 0 h1 h2⟩

theorem run_fst_append (env : Env) (c : Connection) (l1 l2 : List Op) :
    (run env c (l1 ++ l2)).1 = (run env (run env c l1).1 l2).1 := by
  induction l1 generalizing c with
  | nil => simp [run]
  | cons op rest ih => simp [run, ih]

theorem run_snd_append (env : Env) (c : Connection) (l1 l2 : List Op) :
    (run env c (l1 ++ l2)).2 = (run env c l1).2 ++ (run env (run env c l1).1 l2).2 := by
  induction l1 generalizing c with
  | nil => simp [run]
  | cons op rest ih => simp [run, ih]

theorem step_const (env : Env) (c : Connection) (op : Op) :
    (step env c op).1.transports = c.transports
    ∧ (step env c op).1.baseUrl = c.baseUrl
    ∧ (step env c op).1.options = c.options := by
  cases op
  case transportFail s =>
    refine ⟨?_, ?_, ?_⟩ <;>
      (simp only [step, Connection.onTransportFail]
       split <;> simp)
  all_goals
    refine ⟨?_, ?_, ?_⟩ <;>
      (cases hc : c.transport <;>
        simp [step, Connection.start, Connection.stop, Connection.dispose,
          Connection.updateQuery, Connection.setUnauthorizedCallback,
          Connection.setStateChangedCallback, Connection.setReceivedCallback,
          Connection.setConnectionSlowCallback, Connection.getQuery,
          Connection.onOrphanFound, Connection.onSubscribeNetworkError, hc])

theorem step_quiet (env : Env) (c : Connection) (op : Op)
    (h : ∀ s, op ≠ .transportFail s) :
    (step env c op).1.transportIndex = c.transportIndex
    ∧ (step env c op).1.transport = c.transport
    ∧ constructedIndices (step env c op).2 = []
    ∧ Ev.failCalled ∉ (step env c op).2
    ∧ failCalledCount (step env c op).2 = 0 := by
  cases op
  case transportFail s => exact absurd rfl (h s)
  all_goals
    refine ⟨?_, ?_, ?_, ?_, ?_⟩ <;>
      (cases hc : c.transport <;>
        simp [step, Connection.start, Connection.stop, Connection.dispose,
          Connection.updateQuery, Connection.setUnauthorizedCallback,
          Connection.setStateChangedCallback, Connection.setReceivedCallback,
          Connection.setConnectionSlowCallback, Connection.getQuery,
          Connection.onOrphanFound, Connection.onSubscribeNetworkError, hc,
          constructedIndices, failCalledCount])

theorem step_idx_mono (env : Env) (c : Connection) (op : Op) (i : Nat)
    (h : c.transportIndex = some i) :
    ∃ i2, (step env c op).1.transportIndex = some i2 ∧ i ≤ i2 := by
  cases op
  case transportFail s =>
    refine ⟨(createTransport env c.transports c.baseUrl c.transportIndex).1, ?_, ?_⟩
    · simp only [step, Connection.onTransportFail]
      split <;> simp
    · unfold createTransport
      rw [h]
      dsimp only
      have := createTransportGo_le env c.transports c.baseUrl (i + 1)
      omega
  all_goals
    exact ⟨i, by rw [(step_quiet env c _ (fun s hs => by cases hs)).1, h], le_refl i⟩

theorem run_idx_mono (env : Env) (c : Connection) (ops : List Op) (i : Nat)
    (h : c.transportIndex = some i) :
    ∃ i2, (run env c ops).1.transportIndex = some i2 ∧ i ≤ i2 := by
  induction ops generalizing c i with
  | nil => exact ⟨i, by simpa [run] using h, le_refl i⟩
  | cons op rest ih =>
    obtain ⟨i1, h1, hle1⟩ := step_idx_mono env c op i h
    obtain ⟨i2, h2, hle2⟩ := ih (step env c op).1 i1 h1
    exact ⟨i2, by simpa [run] using h2, le_trans hle1 hle2⟩

theorem constructedIndices_append (a b : List Ev) :
    constructedIndices (a ++ b) = constructedIndices a ++ constructedIndices b := by
  simp [constructedIndices, List.filterMap_append]

theorem failCalledCount_append (a b : List Ev) :
    failCalledCount (a ++ b) = failCalledCount a + failCalledCount b := by
  simp [failCalledCount, List.countP_append]

theorem failSrcs_cons (op : Op) (rest : List Op) :
    failSrcs (op :: rest) = failSrcs [op] ++ failSrcs rest := by
  cases op <;> simp [failSrcs, List.filterMap_cons]

theorem failCalledCount_nil : failCalledCount [] = 0 := rfl

theorem failCalledCount_cons (e : Ev) (l : List Ev) :
    failCalledCount (e :: l) = failCalledCount l + (if e = Ev.failCalled then 1 else 0) := by
  simp [failCalledCount, List.countP_cons]

theorem constructedIndices_nil : constructedIndices [] = [] := rfl

theorem constructedIndices_cons (e : Ev) (l : List Ev) :
    constructedIndices (e :: l) =
      (match e with
       | Ev.transportConstructed j _ => [j]
       | _ => []) ++ constructedIndices l := by
  cases e <;> simp [constructedIndices, List.filterMap_cons]

theorem step_count_nonfail (env : Env) (c : Connection) (op : Op)
    (h : ∀ s, op ≠ .transportFail s) :
    failCalledCount (step env c op).2 + (constructedIndices (step env c op).2).length = 0 := by
  have hq := step_quiet env c op h
  rw [hq.2.2.2.2, hq.2.2.1]
  rfl

theorem step_count_fail (env : Env) (c : Connection) (s : Nat) :
    failCalledCount (step env c (.transportFail s)).2 +
      (constructedIndices (step env c (.transportFail s)).2).length = 1 := by
  simp only [step, Connection.onTransportFail]
  rcases hE : createTransport env c.transports c.baseUrl c.transportIndex with ⟨f, o, evs⟩
  have hE' : createTransportGo env c.transports c.baseUrl
      (match c.transportIndex with | none => 0 | some j => j + 1) = (f, o, evs) := hE
  have hfc : failCalledCount evs = 0 := by
    have := createTransportGo_failCalledCount env c.transports c.baseUrl
      (match c.transportIndex with | none => 0 | some j => j + 1)
    rw [hE'] at this
    simpa using this
  cases o with
  | none =>
    have hci : constructedIndices evs = [] := by
      have := createTransportGo_constructed_none env c.transports c.baseUrl
        (match c.transportIndex with | none => 0 | some j => j + 1) (by rw [hE'])
      rw [hE'] at this
      simpa using this
    simp only [failCalledCount_cons, failCalledCount_append, constructedIndices_cons,
      constructedIndices_append, failCalledCount_nil, constructedIndices_nil, hfc, hci]
    simp
  | some t =>
    have hci : constructedIndices evs = [t] := by
      have := (createTransportGo_constructed_some env c.transports c.baseUrl
        (match c.transportIndex with | none => 0 | some j => j + 1) t (by rw [hE'])).1
      rw [hE'] at this
      simpa using this
    by_cases hs : c.state = ConnState.started
    · simp only [hs, if_true, failCalledCount_cons, failCalledCount_append,
        constructedIndices_cons, constructedIndices_append, failCalledCount_nil,
        constructedIndices_nil, hfc, hci]
      simp
    · simp only [hs, if_false, failCalledCount_cons, failCalledCount_append,
        constructedIndices_cons, constructedIndices_append, failCalledCount_nil,
        constructedIndices_nil, hfc, hci]
      simp [hs]

theorem step_count (env : Env) (c : Connection) (op : Op) :
    failCalledCount (step env c op).2 + (constructedIndices (step env c op).2).length
      = (failSrcs [op]).length := by
  cases op
  case transportFail s => simpa [failSrcs] using step_count_fail env c s
  case start cb =>
    simpa [failSrcs] using step_count_nonfail env c (.start cb) (fun s hs => by simp at hs)
  case stop =>
    simpa [failSrcs] using step_count_nonfail env c .stop (fun s hs => by simp at hs)
  case dispose =>
    simpa [failSrcs] using step_count_nonfail env c .dispose (fun s hs => by simp at hs)
  case updateQuery a b e f =>
    simpa [failSrcs] using
      step_count_nonfail env c (.updateQuery a b e f) (fun s hs => by simp at hs)
  case setUnauthorized cb =>
    simpa [failSrcs] using
      step_count_nonfail env c (.setUnauthorized cb) (fun s hs => by simp at hs)
  case setStateChanged cb =>
    simpa [failSrcs] using
      step_count_nonfail env c (.setStateChanged cb) (fun s hs => by simp at hs)
  case setReceived cb =>
    simpa [failSrcs] using
      step_count_nonfail env c (.setReceived cb) (fun s hs => by simp at hs)
  case setConnectionSlow cb =>
    simpa [failSrcs] using
      step_count_nonfail env c (.setConnectionSlow cb) (fun s hs => by simp at hs)
  case getQuery =>
    simpa [failSrcs] using step_count_nonfail env c .getQuery (fun s hs => by simp at hs)
  case onOrphanFound =>
    simpa [failSrcs] using step_count_nonfail env c .onOrphanFound (fun s hs => by simp at hs)
  case onSubscribeNetworkError =>
    simpa [failSrcs] using
      step_count_nonfail env c .onSubscribeNetworkError (fun s hs => by simp at hs)
  case getTransport =>
    simpa [failSrcs] using step_count_nonfail env c .getTransport (fun s hs => by simp at hs)

theorem mk_count (env : Env) (o : Obj) (b : String) (fc : StoredCb) :
    failCalledCount (mkConnection env o b fc).2 +
      (constructedIndices (mkConnection env o b fc).2).length = 1 := by
  simp only [mkConnection]
  rcases hE : createTransport env (getSupportedTransports (optionsTransport o)) b none
    with ⟨f, oo, evs⟩
  have hE' : createTransportGo env (getSupportedTransports (optionsTransport o)) b 0
      = (f, oo, evs) := hE
  have hfc : failCalledCount evs = 0 := by
    have := createTransportGo_failCalledCount env
      (getSupportedTransports (optionsTransport o)) b 0
    rw [hE'] at this
    simpa using this
  cases oo with
  | none =>
    have hci : constructedIndices evs = [] := by
      have := createTransportGo_constructed_none env
        (getSupportedTransports (optionsTransport o)) b 0 (by rw [hE'])
      rw [hE'] at this
      simpa using this
    simp only [failCalledCount_cons, failCalledCount_append, constructedIndices_cons,
      constructedIndices_append, failCalledCount_nil, constructedIndices_nil, hfc, hci]
    simp
  | some t =>
    have hci : constructedIndices evs = [t] := by
      have := (createTransportGo_constructed_some env
        (getSupportedTransports (optionsTransport o)) b 0 t (by rw [hE'])).1
      rw [hE'] at this
      simpa using this
    simp only [failCalledCount_cons, failCalledCount_append, constructedIndices_cons,
      constructedIndices_append, failCalledCount_nil, constructedIndices_nil, hfc, hci]
    simp

theorem run_count (env : Env) (c : Connection) (ops : List Op) :
    failCalledCount (run env c ops).2 + (constructedIndices (run env c ops).2).length
      = (failSrcs ops).length := by
  induction ops generalizing c with
  | nil => simp [run, failCalledCount, constructedIndices, failSrcs]
  | cons op rest ih =>
    have h1 := step_count env c op
    have h2 := ih (step env c op).1
    rw [failSrcs_cons]
    simp only [run, failCalledCount_append, constructedIndices_append,
      List.length_append]
    omega

theorem failCalled_not_mem_go (env : Env) (ts : List Entry) (b : String) (i : Nat) :
    Ev.failCalled ∉ (createTransportGo env ts b i).2.2 := by
  intro hmem
  rcases createTransportGo_events_shape env ts b i _ hmem with ⟨j, hj⟩ | ⟨j, hj⟩ <;> cases hj

theorem mk_inv (env : Env) (o : Obj) (b : String) (fc : StoredCb) :
    ConnInv env (mkConnection env o b fc).1 (mkConnection env o b fc).2 := by
  simp only [mkConnection]
  rcases hE : createTransport env (getSupportedTransports (optionsTransport o)) b none
    with ⟨f, oo, evs⟩
  have hE' : createTransportGo env (getSupportedTransports (optionsTransport o)) b 0
      = (f, oo, evs) := hE
  have hnf : Ev.failCalled ∉ evs := by
    have := failCalled_not_mem_go env (getSupportedTransports (optionsTransport o)) b 0
    rw [hE'] at this
    simpa using this
  cases oo with
  | none =>
    dsimp only
    have hflen : (getSupportedTransports (optionsTransport o)).length ≤ f := by
      have := createTransportGo_none env (getSupportedTransports (optionsTransport o)) b 0
        (by rw [hE'])
      rw [hE'] at this
      simpa using this
    have hunsup := createTransportGo_none_unsupported env
      (getSupportedTransports (optionsTransport o)) b 0 (by rw [hE'])
    have hci : constructedIndices evs = [] := by
      have := createTransportGo_constructed_none env
        (getSupportedTransports (optionsTransport o)) b 0 (by rw [hE'])
      rw [hE'] at this
      simpa using this
    constructor
    · exact ⟨f, rfl⟩
    · intro t ht
      simp at ht
    · intro t ht
      simp at ht
    · intro _ i hi
      simp only [Option.some.injEq] at hi
      subst hi
      exact hflen
    · simp only [constructedIndices_append, constructedIndices_cons, hci]
      simp [constructedIndices_nil]
    · intro j hj
      simp only [constructedIndices_append, constructedIndices_cons, hci] at hj
      simp [constructedIndices_nil] at hj
    · intro i j e hi hj hje hs
      simp only [Option.some.injEq] at hi
      exact absurd hs (by simp [hunsup j e (Nat.zero_le j) hje])
    · intro _
      exact ⟨rfl, fun i hi => by
        simp only [Option.some.injEq] at hi
        subst hi
        exact hflen⟩
  | some t =>
    dsimp only
    have hsome : f = t ∧ 0 ≤ t ∧
        ∃ e, (getSupportedTransports (optionsTransport o)).get? t = some e ∧
          env e.instance_ = true := by
      have := createTransportGo_some env (getSupportedTransports (optionsTransport o)) b 0 t
        (by rw [hE'])
      rw [hE'] at this
      simpa using this
    obtain ⟨hf, -, e0, he0, hse0⟩ := hsome
    subst hf
    have hskip := createTransportGo_some_skipped env
      (getSupportedTransports (optionsTransport o)) b 0 f (by rw [hE'])
    have hcs : constructedIndices evs = [f] ∧ Ev.transportConstructed f b ∈ evs := by
      have := createTransportGo_constructed_some env
        (getSupportedTransports (optionsTransport o)) b 0 f (by rw [hE'])
      rw [hE'] at this
      simpa using this
    have htlen : f < (getSupportedTransports (optionsTransport o)).length :=
      (List.get?_eq_some.mp he0).1
    constructor
    · exact ⟨f, rfl⟩
    · intro t' ht'
      simp only [Option.some.injEq] at ht'
      subst ht'
      exact ⟨rfl, htlen⟩
    · intro t' ht'
      simp only [Option.some.injEq] at ht'
      subst ht'
      exact List.mem_append_left _ hcs.2
    · intro hnone
      simp at hnone
    · simp only [constructedIndices_append, constructedIndices_cons, hcs.1]
      simp [constructedIndices_nil]
    · intro j hj i hi
      simp only [Option.some.injEq] at hi
      subst hi
      simp only [constructedIndices_append, constructedIndices_cons, hcs.1] at hj
      simp [constructedIndices_nil] at hj
      omega
    · intro i j e hi hj hje hs
      simp only [Option.some.injEq] at hi
      subst hi
      rcases Nat.lt_or_ge j f with hlt | hge
      · exact absurd hs (by simp [hskip j e (Nat.zero_le j) hlt hje])
      · have : j = f := by omega
        subst this
        exact List.mem_append_left _ hcs.2
    · intro hmem
      rcases List.mem_append.mp hmem with hm | hm
      · exact absurd hm hnf
      · simp at hm

theorem step_inv_nonfail (env : Env) (c : Connection) (tr : List Ev) (op : Op)
    (hq : ∀ s, op ≠ .transportFail s) (h : ConnInv env c tr) :
    ConnInv env (step env c op).1 (tr ++ (step env c op).2) := by
  obtain ⟨h1, h2, h3, h4, -⟩ := step_quiet env c op hq
  obtain ⟨h5, h6, -⟩ := step_const env c op
  constructor
  · rw [h1]
    exact h.idx
  · intro t ht
    rw [h2] at ht
    rw [h1, h5]
    exact h.act t ht
  · intro t ht
    rw [h2] at ht
    rw [h6]
    exact List.mem_append_left _ (h.act_mem t ht)
  · intro hn i hi
    rw [h2] at hn
    rw [h1] at hi
    rw [h5]
    exact h.exh hn i hi
  · rw [constructedIndices_append, h3, List.append_nil]
    exact h.chain
  · intro j hj i hi
    rw [constructedIndices_append, h3, List.append_nil] at hj
    rw [h1] at hi
    exact h.bound j hj i hi
  · intro i j e hi hj hje hs
    rw [h1] at hi
    rw [h5] at hje
    rw [h6]
    exact List.mem_append_left _ (h.tried i j e hi hj hje hs)
  · intro hmem
    rcases List.mem_append.mp hmem with hm | hm
    · rw [h2, h1, h5]
      exact h.fail_exh hm
    · exact absurd hm h4

theorem step_inv_fail (env : Env) (c : Connection) (tr : List Ev) (s : Nat)
    (h : ConnInv env c tr) :
    ConnInv env (step env c (.transportFail s)).1
      (tr ++ (step env c (.transportFail s)).2) := by
  obtain ⟨i, hi⟩ := h.idx
  simp only [step, Connection.onTransportFail]
  rw [hi]
  unfold createTransport
  dsimp only
  rcases hE : createTransportGo env c.transports c.baseUrl (i + 1) with ⟨f, o, evs⟩
  have hmle : i + 1 ≤ f := by
    have := createTransportGo_le env c.transports c.baseUrl (i + 1)
    rw [hE] at this
    simpa using this
  have hnf : Ev.failCalled ∉ evs := by
    have := failCalled_not_mem_go env c.transports c.baseUrl (i + 1)
    rw [hE] at this
    simpa using this
  cases o with
  | none =>
    dsimp only
    have hlen : c.transports.length ≤ f := by
      have := createTransportGo_none env c.transports c.baseUrl (i + 1) (by rw [hE])
      rw [hE] at this
      simpa using this
    have hunsup := createTransportGo_none_unsupported env c.transports c.baseUrl
      (i + 1) (by rw [hE])
    have hci : constructedIndices evs = [] := by
      have := createTransportGo_constructed_none env c.transports c.baseUrl
        (i + 1) (by rw [hE])
      rw [hE] at this
      simpa using this
    constructor
    · exact ⟨f, rfl⟩
    · intro t ht
      simp at ht
    · intro t ht
      simp at ht
    · intro _ i' hi'
      simp only [Option.some.injEq] at hi'
      subst hi'
      exact hlen
    · simp only [constructedIndices_append, constructedIndices_cons,
        constructedIndices_nil, hci, List.append_nil]
      simpa using h.chain
    · intro j hj i' hi'
      simp only [Option.some.injEq] at hi'
      subst hi'
      simp only [constructedIndices_append, constructedIndices_cons,
        constructedIndices_nil, hci, List.append_nil] at hj
      have := h.bound j hj i hi
      omega
    · intro i' j e hi' hj hje hs
      simp only [Option.some.injEq] at hi'
      subst hi'
      rcases Nat.lt_or_ge j (i + 1) with hle | hgt
      · exact List.mem_append_left _ (h.tried i j e hi (by omega) hje hs)
      · exact absurd hs (by simp [hunsup j e hgt hje])
    · intro _
      refine ⟨rfl, fun i' hi' => ?_⟩
      simp only [Option.some.injEq] at hi'
      subst hi'
      exact hlen
  | some t =>
    dsimp only
    have hsome : f = t ∧ i + 1 ≤ t ∧
        ∃ e, c.transports.get? t = some e ∧ env e.instance_ = true := by
      have := createTransportGo_some env c.transports c.baseUrl (i + 1) t (by rw [hE])
      rw [hE] at this
      simpa using this
    obtain ⟨hf, -, e0, he0, hse0⟩ := hsome
    subst hf
    have hskip := createTransportGo_some_skipped env c.transports c.baseUrl
      (i + 1) f (by rw [hE])
    have hcs : constructedIndices evs = [f] ∧
        Ev.transportConstructed f c.baseUrl ∈ evs := by
      have := createTransportGo_constructed_some env c.transports c.baseUrl
        (i + 1) f (by rw [hE])
      rw [hE] at this
      simpa using this
    have htlen : f < c.transports.length := (List.get?_eq_some.mp he0).1
    have hciAll : ∀ tail : List Ev, constructedIndices tail = [] →
        constructedIndices (Ev.logInfo "Transport failed" :: (evs ++ tail)) = [f] := by
      intro tail htail
      simp [constructedIndices_cons, constructedIndices_append, htail, hcs.1,
        constructedIndices_nil]
    have htail_ci : constructedIndices
        ([Ev.logDebug "Next supported Transport found",
          Ev.tSetReceived f c.receiveCallback,
          Ev.tSetStateChanged f c.stateChangedCallback,
          Ev.tSetUnauthorized f c.unauthorizedCallback,
          Ev.tSetConnectionSlow f c.connectionSlowCallback] ++
         (if c.state = ConnState.started then
            [Ev.tUpdateQuery f c.authToken c.contextId c.authExpiry none,
             Ev.tStart f (jsSpread (optionsAtIndex c.transports (some f)) c.options)
               c.startCallback]
          else [])) = [] := by
      by_cases hst : c.state = ConnState.started <;>
        simp [hst, constructedIndices_append, constructedIndices_cons,
          constructedIndices_nil]
    have htail_nf : Ev.failCalled ∉
        ([Ev.logDebug "Next supported Transport found",
          Ev.tSetReceived f c.receiveCallback,
          Ev.tSetStateChanged f c.stateChangedCallback,
          Ev.tSetUnauthorized f c.unauthorizedCallback,
          Ev.tSetConnectionSlow f c.connectionSlowCallback] ++
         (if c.state = ConnState.started then
            [Ev.tUpdateQuery f c.authToken c.contextId c.authExpiry none,
             Ev.tStart f (jsSpread (optionsAtIndex c.transports (some f)) c.options)
               c.startCallback]
          else [])) := by
      by_cases hst : c.state = ConnState.started <;> simp [hst]
    constructor
    · exact ⟨f, rfl⟩
    · intro t' ht'
      simp only [Option.some.injEq] at ht'
      subst ht'
      exact ⟨rfl, htlen⟩
    · intro t' ht'
      simp only [Option.some.injEq] at ht'
      subst ht'
      refine List.mem_append_right _ ?_
      exact List.mem_cons_of_mem _ (List.mem_append_left _ (List.mem_append_left _ hcs.2))
    · intro hn
      simp at hn
    · have hb : ∀ a ∈ constructedIndices tr, a < f := fun a ha => by
        have := h.bound a ha i hi
        omega
      by_cases hst : c.state = ConnState.started <;>
        simp only [hst, ite_true, ite_false, constructedIndices_append,
          constructedIndices_cons, constructedIndices_nil, hcs.1,
          List.append_assoc, List.append_nil, List.nil_append] <;>
        exact List.pairwise_append.mpr ⟨h.chain, by simp,
          fun a ha b hb' => by
            simp at hb'
            subst hb'
            exact hb a ha⟩
    · intro j hj i' hi'
      simp only [Option.some.injEq] at hi'
      subst hi'
      by_cases hst : c.state = ConnState.started <;>
        simp only [hst, ite_true, ite_false, constructedIndices_append,
          constructedIndices_cons, constructedIndices_nil, hcs.1,
          List.append_assoc, List.append_nil, List.nil_append] at hj <;>
        (rcases List.mem_append.mp hj with hm | hm
         · have := h.bound j hm i hi
           omega
         · simp at hm
           omega)
    · intro i' j e hi' hj hje hs
      simp only [Option.some.injEq] at hi'
      subst hi'
      rcases Nat.lt_or_ge j (i + 1) with hle | hgt
      · exact List.mem_append_left _ (h.tried i j e hi (by omega) hje hs)
      · rcases Nat.lt_or_ge j f with hlt | hge
        · exact absurd hs (by simp [hskip j e hgt hlt hje])
        · have : j = f := by omega
          subst this
          refine List.mem_append_right _ ?_
          exact List.mem_cons_of_mem _
            (List.mem_append_left _ (List.mem_append_left _ hcs.2))
    · intro hmem
      rcases List.mem_append.mp hmem with hm | hm
      · obtain ⟨-, hb2⟩ := h.fail_exh hm
        have := hb2 i hi
        omega
      · rcases List.mem_cons.mp hm with hm2 | hm2
        · cases hm2
        · rcases List.mem_append.mp hm2 with hm3 | hm3
          · rcases List.mem_append.mp hm3 with hm4 | hm4
            · exact absurd hm4 hnf
            · simp at hm4
          · by_cases hst : c.state = ConnState.started <;> simp [hst] at hm3

theorem step_inv (env : Env) (c : Connection) (tr : List Ev) (op : Op)
    (h : ConnInv env c tr) :
    ConnInv env (step env c op).1 (tr ++ (step env c op).2) := by
  cases op
  case transportFail s => exact step_inv_fail env c tr s h
  all_goals exact step_inv_nonfail env c tr _ (fun s hs => by simp at hs) h

theorem run_inv (env : Env) (c : Connection) (tr : List Ev) (ops : List Op)
    (h : ConnInv env c tr) :
    ConnInv env (run env c ops).1 (tr ++ (run env c ops).2) := by
  induction ops generalizing c tr with
  | nil => simpa [run] using h
  | cons op rest ih =>
    have h2 := ih (step env c op).1 (tr ++ (step env c op).2) (step_inv env c tr op h)
    simpa [run, List.append_assoc] using h2

theorem run_const (env : Env) (c : Connection) (ops : List Op) :
    (run env c ops).1.transports = c.transports
    ∧ (run env c ops).1.baseUrl = c.baseUrl := by
  induction ops generalizing c with
  | nil => simp [run]
  | cons op rest ih =>
    obtain ⟨ha, hb, -⟩ := step_const env c op
    obtain ⟨hc2, hd⟩ := ih (step env c op).1
    exact ⟨hc2.trans ha, hd.trans hb⟩

theorem mk_const (env : Env) (o : Obj) (b : String) (fc : StoredCb) :
    (mkConnection env o b fc).1.transports = getSupportedTransports (optionsTransport o)
    ∧ (mkConnection env o b fc).1.baseUrl = b := by
  simp only [mkConnection]
  split <;> simp

/-- C1: under the transport contract (every failure signal is raised by a
previously constructed transport instance, each instance at most once), the
total-failure callback fires at most once over the whole lifetime; whenever
it has fired, every supported candidate in the list had been constructed
(tried) — it never fires while a viable candidate remains untried; and for a
candidate list all of whose entries are unsupported, construction fires it
exactly once, constructs no transport and leaves the transport null. -/
theorem claim_C1 (env : Env) (options : Obj) (baseUrl : String)
    (failCallback : StoredCb) (ops : List Op)
    (hnd : (failSrcs ops).Nodup)
    (hsub : ∀ s ∈ failSrcs ops,
        s ∈ constructedIndices (connTrace env options baseUrl failCallback ops)) :
    failCalledCount (connTrace env options baseUrl failCallback ops) ≤ 1
    ∧ (Ev.failCalled ∈ connTrace env options baseUrl failCallback ops →
        ∀ j e,
          (connRun env options baseUrl failCallback ops).transports.get? j = some e →
          env e.instance_ = true →
          Ev.transportConstructed j baseUrl ∈
            connTrace env options baseUrl failCallback ops)
    ∧ ((∀ e ∈ getSupportedTransports (optionsTransport options),
          env e.instance_ = false) →
        failCalledCount (mkConnection env options baseUrl failCallback).2 = 1
        ∧ constructedIndices (mkConnection env options baseUrl failCallback).2 = []
        ∧ (mkConnection env options baseUrl failCallback).1.transport = none) := by
  have hinv : ConnInv env (connRun env options baseUrl failCallback ops)
      (connTrace env options baseUrl failCallback ops) :=
    run_inv env (mkConnection env options baseUrl failCallback).1
      (mkConnection env options baseUrl failCallback).2 ops
      (mk_inv env options baseUrl failCallback)
  refine ⟨?_, ?_, ?_⟩
  · have hmk := mk_count env options baseUrl failCallback
    have hrun := run_count env (mkConnection env options baseUrl failCallback).1 ops
    have hnodupC : (constructedIndices
        (connTrace env options baseUrl failCallback ops)).Nodup :=
      List.Pairwise.imp (fun h => Nat.ne_of_lt h) hinv.chain
    have hF : (failSrcs ops).length ≤
        (constructedIndices (connTrace env options baseUrl failCallback ops)).length := by
      have hsubF : (failSrcs ops).toFinset ⊆
          (constructedIndices (connTrace env options baseUrl failCallback ops)).toFinset := by
        intro x hx
        rw [List.mem_toFinset] at hx ⊢
        exact hsub x hx
      calc (failSrcs ops).length
          = (failSrcs ops).toFinset.card := (List.toFinset_card_of_nodup hnd).symm
        _ ≤ (constructedIndices
              (connTrace env options baseUrl failCallback ops)).toFinset.card :=
            Finset.card_le_card hsubF
        _ = (constructedIndices
              (connTrace env options baseUrl failCallback ops)).length :=
            List.toFinset_card_of_nodup hnodupC
    have hT : failCalledCount (connTrace env options baseUrl failCallback ops)
        + (constructedIndices (connTrace env options baseUrl failCallback ops)).length
        = 1 + (failSrcs ops).length := by
      show failCalledCount ((mkConnection env options baseUrl failCallback).2 ++
          (run env (mkConnection env options baseUrl failCallback).1 ops).2)
          + (constructedIndices ((mkConnection env options baseUrl failCallback).2 ++
            (run env (mkConnection env options baseUrl failCallback).1 ops).2)).length
          = 1 + (failSrcs ops).length
      rw [failCalledCount_append, constructedIndices_append, List.length_append]
      omega
    omega
  · intro hmem j e hje hs
    obtain ⟨-, hexh⟩ := hinv.fail_exh hmem
    obtain ⟨i, hi⟩ := hinv.idx
    have hlen := hexh i hi
    have hjlen : j < (connRun env options baseUrl failCallback ops).transports.length :=
      (List.get?_eq_some.mp hje).1
    have hmem2 := hinv.tried i j e hi (by omega) hje hs
    have hb : (connRun env options baseUrl failCallback ops).baseUrl = baseUrl :=
      (run_const env (mkConnection env options baseUrl failCallback).1 ops).2.trans
        (mk_const env options baseUrl failCallback).2
    rwa [hb] at hmem2
  · intro hall
    simp only [mkConnection]
    rcases hE : createTransport env (getSupportedTransports (optionsTransport options))
        baseUrl none with ⟨f, o, evs⟩
    have hE' : createTransportGo env (getSupportedTransports (optionsTransport options))
        baseUrl 0 = (f, o, evs) := hE
    cases o with
    | some t =>
      exfalso
      have := createTransportGo_some env
        (getSupportedTransports (optionsTransport options)) baseUrl 0 t (by rw [hE'])
      rw [hE'] at this
      simp only at this
      obtain ⟨-, -, e, he, hse⟩ := this
      have : e ∈ getSupportedTransports (optionsTransport options) := List.get?_mem he
      rw [hall e this] at hse
      cases hse
    | none =>
      dsimp only
      have hfc : failCalledCount evs = 0 := by
        have := createTransportGo_failCalledCount env
          (getSupportedTransports (optionsTransport options)) baseUrl 0
        rw [hE'] at this
        simpa using this
      have hci : constructedIndices evs = [] := by
        have := createTransportGo_constructed_none env
          (getSupportedTransports (optionsTransport options)) baseUrl 0 (by rw [hE'])
        rw [hE'] at this
        simpa using this
      refine ⟨?_, ?_, rfl⟩
      · simp only [failCalledCount_append, failCalledCount_cons, failCalledCount_nil, hfc]
        simp
      · simp only [constructedIndices_append, constructedIndices_cons,
          constructedIndices_nil, hci]
        simp

/-- Witness for C1: no-transport environment, empty stimulus sequence. -/
theorem claim_C1_witness :
    (failSrcs ([] : List Op)).Nodup
    ∧ (∀ s ∈ failSrcs ([] : List Op),
        s ∈ constructedIndices (connTrace envNone [] "url" .noop []))
    ∧ (failCalledCount (connTrace envNone [] "url" .noop []) ≤ 1
      ∧ (Ev.failCalled ∈ connTrace envNone [] "url" .noop [] →
          ∀ j e, (connRun envNone [] "url" .noop []).transports.get? j = some e →
            envNone e.instance_ = true →
            Ev.transportConstructed j "url" ∈ connTrace envNone [] "url" .noop [])
      ∧ ((∀ e ∈ getSupportedTransports (optionsTransport []),
            envNone e.instance_ = false) →
          failCalledCount (mkConnection envNone [] "url" .noop).2 = 1
          ∧ constructedIndices (mkConnection envNone [] "url" .noop).2 = []
          ∧ (mkConnection envNone [] "url" .noop).1.transport = none)) :=
  ⟨by decide, by decide, claim_C1 envNone [] "url" .noop [] (by decide) (by decide)⟩

/-- C5: over every stimulus sequence, the cursor is monotonically
non-decreasing and never reset; the candidate indices at which transports
are instantiated form a strictly increasing sequence (no index twice); and
the single active-transport reference is exactly the instance constructed at
the cursor's index inside the candidate list, or null once the cursor has
advanced past the end. -/
theorem claim_C5 (env : Env) (options : Obj) (baseUrl : String)
    (failCallback : StoredCb) (ops : List Op) :
    (∀ l1 l2, ops = l1 ++ l2 →
      ∀ i, (connRun env options baseUrl failCallback l1).transportIndex = some i →
        ∃ i2, (connRun env options baseUrl failCallback ops).transportIndex = some i2
          ∧ i ≤ i2)
    ∧ List.Pairwise (· < ·)
        (constructedIndices (connTrace env options baseUrl failCallback ops))
    ∧ (∀ t, (connRun env options baseUrl failCallback ops).transport = some t →
        (connRun env options baseUrl failCallback ops).transportIndex = some t
        ∧ t < (connRun env options baseUrl failCallback ops).transports.length
        ∧ Ev.transportConstructed t baseUrl ∈
            connTrace env options baseUrl failCallback ops)
    ∧ ((connRun env options baseUrl failCallback ops).transport = none →
        ∀ i, (connRun env options baseUrl failCallback ops).transportIndex = some i →
          (connRun env options baseUrl failCallback ops).transports.length ≤ i) := by
  have hinv : ConnInv env (connRun env options baseUrl failCallback ops)
      (connTrace env options baseUrl failCallback ops) :=
    run_inv env (mkConnection env options baseUrl failCallback).1
      (mkConnection env options baseUrl failCallback).2 ops
      (mk_inv env options baseUrl failCallback)
  have hb : (connRun env options baseUrl failCallback ops).baseUrl = baseUrl :=
    (run_const env (mkConnection env options baseUrl failCallback).1 ops).2.trans
      (mk_const env options baseUrl failCallback).2
  refine ⟨?_, hinv.chain, ?_, hinv.exh⟩
  · intro l1 l2 hsplit i hidx
    subst hsplit
    obtain ⟨i2, h2, hle⟩ :=
      run_idx_mono env (run env (mkConnection env options baseUrl failCallback).1 l1).1
        l2 i hidx
    refine ⟨i2, ?_, hle⟩
    show (run env (mkConnection env options baseUrl failCallback).1 (l1 ++ l2)).1.transportIndex
      = some i2
    rw [run_fst_append]
    exact h2
  · intro t ht
    refine ⟨(hinv.act t ht).1, (hinv.act t ht).2, ?_⟩
    have hm := hinv.act_mem t ht
    rwa [hb] at hm

/-- Witness for C5: default candidate list, one transport failure. -/
theorem claim_C5_witness :
    (∀ l1 l2, ([Op.transportFail 0] : List Op) = l1 ++ l2 →
      ∀ i, (connRun envAll [] "url" .noop l1).transportIndex = some i →
        ∃ i2, (connRun envAll [] "url" .noop [Op.transportFail 0]).transportIndex = some i2
          ∧ i ≤ i2)
    ∧ List.Pairwise (· < ·)
        (constructedIndices (connTrace envAll [] "url" .noop [Op.transportFail 0]))
    ∧ (∀ t, (connRun envAll [] "url" .noop [Op.transportFail 0]).transport = some t →
        (connRun envAll [] "url" .noop [Op.transportFail 0]).transportIndex = some t
        ∧ t < (connRun envAll [] "url" .noop [Op.transportFail 0]).transports.length
        ∧ Ev.transportConstructed t "url" ∈
            connTrace envAll [] "url" .noop [Op.transportFail 0])
    ∧ ((connRun envAll [] "url" .noop [Op.transportFail 0]).transport = none →
        ∀ i, (connRun envAll [] "url" .noop [Op.transportFail 0]).transportIndex = some i →
          (connRun envAll [] "url" .noop [Op.transportFail 0]).transports.length ≤ i) :=
  claim_C5 envAll [] "url" .noop [Op.transportFail 0]
